import Mathlib

set_option maxRecDepth 8192

/-!
Shallow embedding of the two hook scripts of this repository:
`scripts/semantic_bump.py` (interactive pre-commit stage plus message-driven
commit-msg enforcement over a fixed catalog registry) and
`scripts/semantic_versioning.py` (validate-only commit-msg guard using a
segment grammar over dynamic catalogs).

Strings are modelled over `List Char`.  The Python regular expressions of the
scripts are compiled by hand into deterministic scanners: each pattern used is
unambiguous (no alternative of any alternation is a prefix of another
alternative, and every greedy `\s*` or character-class repetition is followed
by a character outside the repeated class), so backtracking never changes the
matched text and a single-pass scanner is an exact model.  Python `\s` and
`str.strip()` are modelled by the six ASCII whitespace characters; all inputs
handled by the hooks (git paths and commit message text) are ASCII.
-/

namespace SemverHooks

/-- Python `\s` restricted to ASCII: space, tab, newline, carriage return,
vertical tab, form feed. -/
def pySpace (c : Char) : Bool :=
  c = ' ' || c = '\t' || c = '\n' || c = '\r' || c = '\x0b' || c = '\x0c'

/-- Python `str.strip()` on a character list. -/
def stripChars (l : List Char) : List Char :=
  ((l.dropWhile pySpace).reverse.dropWhile pySpace).reverse

/-- Python `str.strip()`. -/
def pyStrip (s : String) : String := ⟨stripChars s.data⟩

/-- Python `str.rstrip()`. -/
def pyRstrip (s : String) : String := ⟨(s.data.reverse.dropWhile pySpace).reverse⟩

/-- Python `str.lower()` on a character list (ASCII). -/
def lowerL (l : List Char) : List Char := l.map Char.toLower

/-- Python `str.lower()`. -/
def strLower (s : String) : String := ⟨lowerL s.data⟩

/-- Membership of a character in a character list. -/
def elemChar (c : Char) : List Char → Bool
  | [] => false
  | d :: ds => c = d || elemChar c ds

/-- Membership of a string in a string list. -/
def elemStr (x : String) : List String → Bool
  | [] => false
  | y :: ys => x = y || elemStr x ys

/-- List-prefix test on character lists. -/
def isPrefixOfCL : List Char → List Char → Bool
  | [], _ => true
  | _ :: _, [] => false
  | a :: as, b :: bs => a = b && isPrefixOfCL as bs

/-- Substring occurrence test: `occursIn p l` holds when `p` occurs
contiguously inside `l` (Python `p in l`). -/
def occursIn (p : List Char) : List Char → Bool
  | [] => p.isEmpty
  | c :: rest => isPrefixOfCL p (c :: rest) || occursIn p rest

/-- Number of (possibly overlapping) start positions at which `p` occurs. -/
def countOccur (p : List Char) : List Char → Nat
  | [] => if p.isEmpty then 1 else 0
  | c :: rest => (if isPrefixOfCL p (c :: rest) then 1 else 0) + countOccur p rest

/-- Python `pat in s`. -/
def strContains (s pat : String) : Bool := occursIn pat.data s.data

/-- Python `s.endswith(suf)`. -/
def strEndsWith (s suf : String) : Bool := isPrefixOfCL suf.data.reverse s.data.reverse

/-- Number of occurrences of `pat` inside `s`. -/
def countOccurStr (s pat : String) : Nat := countOccur pat.data s.data

/-- Split a character list on a separator character, Python `str.split(sep)`
semantics (an empty input yields one empty field). -/
def splitOnCharL (sep : Char) : List Char → List (List Char)
  | [] => [[]]
  | c :: rest =>
    if c = sep then [] :: splitOnCharL sep rest
    else
      match splitOnCharL sep rest with
      | [] => [[c]]
      | h :: t => (c :: h) :: t

/-- Join character lists with a separator, Python `sep.join(...)` semantics. -/
def joinWithL (sep : List Char) : List (List Char) → List Char
  | [] => []
  | [x] => x
  | x :: xs => x ++ sep ++ joinWithL sep xs

/-- Python `sep.join(strings)`. -/
def joinWithStr (sep : String) (l : List String) : String :=
  ⟨joinWithL sep.data (l.map String.data)⟩

/-- Characters treated as line breaks by Python `str.splitlines` (ASCII
fragment): `\n`, `\r`, vertical tab, form feed, and the three ASCII
separators `\x1c`-`\x1e`. -/
def isLineBreakChar (c : Char) : Bool :=
  c = '\n' || c = '\r' || c = '\x0b' || c = '\x0c' || c = '\x1c' || c = '\x1d' || c = '\x1e'

/-- Python `str.splitlines` worker: `\r\n` counts as one break; a break at the
very end produces no extra empty line. -/
def splitlinesGo (acc : List Char) : List Char → List (List Char)
  | [] => [acc.reverse]
  | '\r' :: '\n' :: rest =>
    acc.reverse :: (if rest.isEmpty then [] else splitlinesGo [] rest)
  | c :: rest =>
    if isLineBreakChar c then
      acc.reverse :: (if rest.isEmpty then [] else splitlinesGo [] rest)
    else splitlinesGo (c :: acc) rest

/-- Python `str.splitlines` (the empty string yields no lines). -/
def pySplitlines (l : List Char) : List (List Char) :=
  if l.isEmpty then [] else splitlinesGo [] l

/-- Drop an exact (case-sensitive) literal from the front of the input,
returning the remainder on success. -/
def dropLit : List Char → List Char → Option (List Char)
  | [], l => some l
  | p :: ps, c :: cs => if c = p then dropLit ps cs else none
  | _ :: _, [] => none

/-- Drop a lowercase literal from the front of the input case-insensitively
(models a token under `re.IGNORECASE`). -/
def dropCI : List Char → List Char → Option (List Char)
  | [], l => some l
  | p :: ps, c :: cs => if c.toLower = p then dropCI ps cs else none
  | _ :: _, [] => none

/-- Match one fixed alternation token case-insensitively; on success, return
the canonical (lowercase) token together with the unconsumed remainder.  The
scripts always lowercase the matched group before use, so returning the
canonical token is exact. -/
def tryToken (tok : String) (l : List Char) : Option (String × List Char) :=
  match dropCI tok.data l with
  | some rest => some (tok, rest)
  | none => none

/-- Regex alternation over a list of fixed tokens, tried left to right.
No token of any alternation in the scripts is a prefix of another, so at most
one alternative matches at a given position and the scan is deterministic. -/
def firstToken (toks : List String) (l : List Char) : Option (String × List Char) :=
  match toks with
  | [] => none
  | t :: ts =>
    match tryToken t l with
    | some r => some r
    | none => firstToken ts l

/-- Numeric value of a digit run (Python `int` on a decimal string). -/
def digitsVal (ds : List Char) : Nat :=
  ds.foldl (fun a c => a * 10 + (c.toNat - 48)) 0

/-- Greedy `(\d+)`: take a nonempty maximal digit run and its value. -/
def parseDigits (l : List Char) : Option (Nat × List Char) :=
  let ds := l.takeWhile Char.isDigit
  if ds.isEmpty then none else some (digitsVal ds, l.drop ds.length)

/-- Model of a trailing `\s*$` under `re.M`: with backtracking, the pattern
accepts exactly when some whitespace run from the current position reaches the
end of the string or a newline character. -/
def lineEndOk (r : List Char) : Bool :=
  (r.takeWhile pySpace).length = r.length || elemChar '\n' (r.takeWhile pySpace)

/-- Lexicographic code-point comparison of character lists (Python string
order on ASCII). -/
def lexLe : List Char → List Char → Bool
  | [], _ => true
  | _ :: _, [] => false
  | a :: as, b :: bs => if a = b then lexLe as bs else decide (a.toNat < b.toNat)

/-- Insert into a sorted string list. -/
def insertSorted (x : String) : List String → List String
  | [] => [x]
  | y :: ys => if lexLe x.data y.data then x :: y :: ys else y :: insertSorted x ys

/-- Python `sorted` on strings (insertion sort; deterministic, total order by
code points). -/
def sortStrs (l : List String) : List String := l.foldr insertSorted []

/-- Remove duplicates keeping first occurrences (models conversion of a key
sequence to a Python set where only membership, `sorted`, and single-element
extraction are observed). -/
def dedupAux (seen : List String) : List String → List String
  | [] => []
  | x :: xs => if elemStr x seen then dedupAux seen xs else x :: dedupAux (x :: seen) xs

/-- Deduplicate a string list, keeping first occurrences. -/
def dedupStr (l : List String) : List String := dedupAux [] l

namespace SemanticBump

/-- CONFIG of `scripts/semantic_bump.py` (lines 9-13): which folders are
catalogs and where their version lives (`CATALOGS` dict, insertion order
preserved). -/
def CATALOGS : List (String × String) :=
  [("catalogs/catalog_alpha", "catalogs/catalog_alpha/__init__.py"),
   ("catalogs/catalog_beta", "catalogs/catalog_beta/__init__.py"),
   ("catalogs/catalog_gamma", "catalogs/catalog_gamma/__init__.py")]

/-- `LEVEL_MAP` of `scripts/semantic_bump.py` (lines 16-22): accepted tokens
mapped to normalized semver levels (feat → minor, fix → patch). -/
def LEVEL_MAP : List (String × String) :=
  [("major", "major"), ("minor", "minor"), ("patch", "patch"),
   ("feat", "minor"), ("fix", "patch")]

/-- Python dict lookup returning `none` when the key is absent.  The
association lists modelling dicts keep keys unique. -/
def dictGet (d : List (String × String)) (k : String) : Option String :=
  (d.find? (fun p => p.1 = k)).map Prod.snd

/-- Python `LEVEL_MAP.get(tok, dflt)` (used by `do_pre_commit`, line 148). -/
def LEVEL_MAP_get (tok dflt : String) : String :=
  (dictGet LEVEL_MAP tok).getD dflt

/-- Python dict upsert: later assignments to an existing key overwrite its
value in place; new keys append in insertion order. -/
def dictInsert (d : List (String × String)) (k v : String) : List (String × String) :=
  if d.any (fun p => p.1 = k) then d.map (fun p => if p.1 = k then (k, v) else p)
  else d ++ [(k, v)]

/-- Regex `PY = .*\.py$` applied with `re.match` to a git path (paths contain
no newline): equivalent to an `endswith(".py")` test. -/
def PY_match (f : String) : Bool := strEndsWith f ".py"

/-- `catalogs_with_python_changes` (lines 36-41): a catalog is touched when
some staged file lies strictly under its directory and ends in `.py`. -/
def catalogs_with_python_changes (files : List String) : List (String × String) :=
  CATALOGS.filter (fun cd =>
    files.any (fun f => isPrefixOfCL (cd.1 ++ "/").data f.data && PY_match f))

/-- `bump_tuple` (lines 77-86): any level other than `major` and `minor`
bumps the patch component (the source comments this branch `patch default`). -/
def bump_tuple (v : Nat × Nat × Nat) (level : String) : Nat × Nat × Nat :=
  if level = "major" then (v.1 + 1, 0, 0)
  else if level = "minor" then (v.1, v.2.1 + 1, 0)
  else (v.1, v.2.1, v.2.2 + 1)

/-- Decision surface of `do_pre_commit` (lines 122-154): exit 0 untouched when
no catalog has Python changes; exit 0 untouched when stdin is not a terminal;
otherwise enter the interactive prompt/bump flow over the touched catalogs
(which reads and rewrites each touched catalog's `__init__.py`). -/
inductive PreCommitOutcome where
  | exitNoTouched
  | exitNoTty
  | interactive (touched : List (String × String))
deriving DecidableEq

/-- Control-flow model of `do_pre_commit` (lines 122-131) up to the prompt
interaction. -/
def do_pre_commit_outcome (files : List String) (isatty : Bool) : PreCommitOutcome :=
  let touched := catalogs_with_python_changes files
  if touched.isEmpty then .exitNoTouched
  else if isatty then .interactive touched
  else .exitNoTty

/-- Match of the regex `VERSION_LINE` (line 26)
`^__version__\s*=\s*["\'](\d+)\.(\d+)\.(\d+)["\']\s*$` (with `re.M`) starting
at the current position, which must be a line start.  The two `\s*` gaps may
absorb newlines; the opening and closing quote need not agree (the character
classes accept either quote, written here by code point 39 for the single
quote); the trailing `\s*$` is `lineEndOk`. -/
def matchVersionAt (l : List Char) : Option (Nat × Nat × Nat) :=
  match dropLit "__version__".data l with
  | none => none
  | some r1 =>
    match r1.dropWhile pySpace with
    | '=' :: r2 =>
      match r2.dropWhile pySpace with
      | q :: r3 =>
        if q = '"' || q.toNat = 39 then
          match parseDigits r3 with
          | some (a, '.' :: r4) =>
            match parseDigits r4 with
            | some (b, '.' :: r5) =>
              match parseDigits r5 with
              | some (c, q2 :: r6) =>
                if (q2 = '"' || q2.toNat = 39) && lineEndOk r6 then some (a, b, c)
                else none
              | _ => none
            | _ => none
          | _ => none
        else none
      | [] => none
    | _ => none

/-- Scan for the first `VERSION_LINE` match (Python `VERSION_LINE.search`),
trying every line-start position left to right; with `re.M`, `^` matches at
the start of the string and immediately after each newline. -/
def searchVersionAux : Bool → List Char → Option (Nat × Nat × Nat)
  | _, [] => none
  | lineStart, c :: cs =>
    if lineStart then
      match matchVersionAt (c :: cs) with
      | some v => some v
      | none => searchVersionAux (c = '\n') cs
    else searchVersionAux (c = '\n') cs

/-- `VERSION_LINE.search(txt)` returning the three captured integers. -/
def VERSION_LINE_search (txt : String) : Option (Nat × Nat × Nat) :=
  searchVersionAux true txt.data

/-- Result of `get_version_from_init` (lines 52-67): the returned version
tuple, the returned file content, and the content written back to the file
when the function self-heals (`wrote = none` means no write happened).  The
function is total: no error path exists for a missing or malformed version
literal. -/
structure EnsureResult where
  version : Nat × Nat × Nat
  content : String
  wrote : Option String
deriving DecidableEq

/-- `get_version_from_init` (lines 52-67), with the file-system read made
explicit: `txt` is `read_text(initp)`, which is `""` when the file does not
exist.  An empty read creates the file holding only the default literal; a
read without a `VERSION_LINE` match appends the default literal after
`rstrip`; both heal to version (0, 1, 0).  The default parameter is the
literal `"0.1.0"` at every call site. -/
def get_version_from_init (txt : String) : EnsureResult :=
  if txt = "" then
    { version := (0, 1, 0),
      content := "__version__ = \"0.1.0\"\n",
      wrote := some "__version__ = \"0.1.0\"\n" }
  else
    match VERSION_LINE_search txt with
    | none =>
      { version := (0, 1, 0),
        content := pyRstrip txt ++ "\n__version__ = \"0.1.0\"\n",
        wrote := some (pyRstrip txt ++ "\n__version__ = \"0.1.0\"\n") }
    | some v => { version := v, content := txt, wrote := none }

/-- Alternation `(major|minor|patch|feat|fix)` of the shorthand grammar. -/
def matchLevel5 (l : List Char) : Option (String × List Char) :=
  firstToken ["major", "minor", "patch", "feat", "fix"] l

/-- Match of `(?im)^\s*Global\s*:\s*(major|minor|patch|feat|fix)\s*$`
(`parse_global_level`, lines 109-113) at a line-start position; the matched
level is normalized through `LEVEL_MAP`.  The `\s*` gaps may absorb newlines
(`re.M` does not change `\s`). -/
def matchGlobalAt (l : List Char) : Option String :=
  match dropCI "global".data (l.dropWhile pySpace) with
  | none => none
  | some r2 =>
    match r2.dropWhile pySpace with
    | ':' :: r4 =>
      match matchLevel5 (r4.dropWhile pySpace) with
      | some (lvl, r6) =>
        if lineEndOk r6 then some ((dictGet LEVEL_MAP lvl).getD lvl) else none
      | none => none
    | _ => none

/-- Scan all line starts for the first Global match (`re.search` whose
pattern begins with `^` under `re.M`). -/
def searchGlobalAux : Bool → List Char → Option String
  | _, [] => none
  | lineStart, c :: cs =>
    if lineStart then
      match matchGlobalAt (c :: cs) with
      | some lvl => some lvl
      | none => searchGlobalAux (c = '\n') cs
    else searchGlobalAux (c = '\n') cs

/-- `parse_global_level` (lines 109-113). -/
def parse_global_level (msg : String) : Option String := searchGlobalAux true msg.data

/-- Match of `(?i)"([^"]+)"\s*:\s*(major|minor|patch|feat|fix)` immediately
after an opening double quote: a nonempty greedy run of non-quote characters
(the catalog, case preserved), the closing quote, `\s*:\s*`, then the level
alternation with nothing required after it.  Returns the remainder after the
match for the non-overlapping `findall` scan. -/
def matchQuotedAt (l : List Char) : Option (String × String × List Char) :=
  let cat := l.takeWhile (fun c => c != '"')
  if cat.isEmpty then none
  else
    match l.drop cat.length with
    | '"' :: r1 =>
      match r1.dropWhile pySpace with
      | ':' :: r3 =>
        match matchLevel5 (r3.dropWhile pySpace) with
        | some (lvl, rest) => some (⟨cat⟩, lvl, rest)
        | none => none
      | _ => none
    | _ => none

/-- `re.findall` scan for the quoted-entry pattern: a match can only start at
a double quote; on success the scan resumes after the match
(non-overlapping), on failure at the next character.  The fuel argument is
initialized to the string length; every step consumes at least one character
and exactly one unit of fuel, so the fuel never runs out and the scan is an
exact model of the unbounded regex scan. -/
def findallQuotedAux : Nat → List Char → List (String × String)
  | 0, _ => []
  | _ + 1, [] => []
  | fuel + 1, c :: rest =>
    if c = '"' then
      match matchQuotedAt rest with
      | some (cat, lvl, remaining) => (cat, lvl) :: findallQuotedAux fuel remaining
      | none => findallQuotedAux fuel rest
    else findallQuotedAux fuel rest

/-- All quoted per-catalog entries of the message, in match order. -/
def findallQuoted (l : List Char) : List (String × String) :=
  findallQuotedAux l.length l

/-- `parse_per_catalog_levels` (lines 115-119): the dict of catalog →
normalized level; later duplicate catalog keys overwrite earlier values. -/
def parse_per_catalog_levels (msg : String) : List (String × String) :=
  (findallQuoted msg.data).foldl
    (fun d p => dictInsert d p.1 ((dictGet LEVEL_MAP p.2).getD p.2)) []

/-- Error outcomes of the commit-msg schema check (lines 185-205), carrying
the name lists printed in the guidance. -/
inductive MsgCheckError where
  | missingSingle (only : String)
  | missingMulti (expectedAll missing : List String)
  | extraneousCatalogs (extraneous : List String)
deriving DecidableEq

/-- Level resolution of `do_commit_msg` (lines 174-208).  With exactly one
touched catalog the per-catalog entry is consulted first, then the Global
entry.  With any other number of touched catalogs, per-catalog entries are
required for every touched catalog, missing names are reported first
(sorted), then extraneous names (sorted), and the Global entry is never
consulted.  The touched names are passed deduplicated (the code uses a set);
on the accept path every lookup succeeds, so the `getD ""` default is
unreachable. -/
def resolve_levels (touched_names : List String) (global_level : Option String)
    (per_levels : List (String × String)) : Except MsgCheckError (List (String × String)) :=
  match touched_names with
  | [only] =>
    match dictGet per_levels only with
    | some lvl => .ok [(only, lvl)]
    | none =>
      match global_level with
      | some g => .ok [(only, g)]
      | none => .error (.missingSingle only)
  | _ =>
    if (touched_names.filter (fun n => !elemStr n (per_levels.map Prod.fst))).isEmpty then
      if ((per_levels.map Prod.fst).filter (fun n => !elemStr n touched_names)).isEmpty then
        .ok (touched_names.map (fun n => (n, (dictGet per_levels n).getD "")))
      else
        .error (.extraneousCatalogs
          (sortStrs ((per_levels.map Prod.fst).filter (fun n => !elemStr n touched_names))))
    else
      .error (.missingMulti (sortStrs touched_names)
        (sortStrs (touched_names.filter (fun n => !elemStr n (per_levels.map Prod.fst)))))

/-- Outcome of the commit-msg stage gate (lines 157-208), before the bump and
trailer-append effects of the accept path. -/
inductive CommitMsgOutcome where
  | nothingToEnforce
  | reject (err : MsgCheckError)
  | proceed (levels_for : List (String × String))
deriving DecidableEq

/-- Python `cat_dir.split("/")[-1]`. -/
def lastComponent (s : String) : String :=
  match (splitOnCharL '/' s.data).reverse with
  | [] => ""
  | lastc :: _ => ⟨lastc⟩

/-- Gate logic of `do_commit_msg` (lines 157-208): nothing to enforce when no
catalog has Python changes; otherwise resolve a level per touched short name
from the message, rejecting (exit 1) on a schema violation and proceeding to
the bump/trailer phase on success. -/
def do_commit_msg_resolve (files : List String) (msg : String) : CommitMsgOutcome :=
  let touched := catalogs_with_python_changes files
  if touched.isEmpty then .nothingToEnforce
  else
    let touched_names := dedupStr (touched.map (fun t => lastComponent t.1))
    match resolve_levels touched_names (parse_global_level msg) (parse_per_catalog_levels msg) with
    | .error e => .reject e
    | .ok levels => .proceed levels

/-- Process exit status of the commit-msg stage decision: rejections exit 1
and block the commit; the other outcomes exit 0. -/
def commit_msg_exit : CommitMsgOutcome → Nat
  | .nothingToEnforce => 0
  | .reject _ => 1
  | .proceed _ => 0

/-- First trailer step of `do_commit_msg` (lines 222-223): ensure the message
ends with a newline. -/
def ensure_trailing_nl (msg : String) : String :=
  if strEndsWith msg "\n" then msg else msg ++ "\n"

/-- Second trailer step (lines 224-225): append `Precommit-Run: true` only
when that token is not already present in the message. -/
def ensure_precommit_trailer (m : String) : String :=
  if strContains m "Precommit-Run: true" then m else m ++ "Precommit-Run: true\n"

/-- Unconditional trailer block (lines 226-233): the `Semver-Bump` line and
the per-catalog `Semver-Level-` lines, appended with no presence check. -/
def semver_trailer_block (bumped_names touched_names : List String)
    (levels_for : List (String × String)) : String :=
  "Semver-Bump: " ++ joinWithStr "," (sortStrs bumped_names) ++ "\n" ++
    (match touched_names with
     | [only] => "Semver-Level-" ++ only ++ ": " ++ (dictGet levels_for only).getD "" ++ "\n"
     | _ => joinWithStr "" ((sortStrs touched_names).map
         (fun name => "Semver-Level-" ++ name ++ ": " ++ (dictGet levels_for name).getD "" ++ "\n")))

/-- Trailer-appending step of `do_commit_msg` (lines 221-235) as a function
of the message text. -/
def append_trailers (msg : String) (bumped_names touched_names : List String)
    (levels_for : List (String × String)) : String :=
  ensure_precommit_trailer (ensure_trailing_nl msg) ++
    semver_trailer_block bumped_names touched_names levels_for

end SemanticBump

namespace SemanticVersioning

/-- `LEVEL_MAP` of `scripts/semantic_versioning.py` (lines 18-25), including
the `NA` no-op alias. -/
def LEVEL_MAP : List (String × String) :=
  [("major", "major"), ("minor", "minor"), ("patch", "patch"),
   ("feat", "minor"), ("fix", "patch"), ("NA", "NA")]

/-- `VALID_LEVEL_TOKENS` (line 27): the lowercased `LEVEL_MAP` keys together
with `na`. -/
def VALID_LEVEL_TOKENS : List String := ["major", "minor", "patch", "feat", "fix", "na"]

/-- A parsed commit segment (level lowercased, catalog with exact case, file
basenames lowercased), as produced by `parse_commit_segments`. -/
structure Segment where
  level : String
  catalog : String
  files : List String
deriving DecidableEq

/-- Catalog-name character class `[A-Za-z0-9._\-]` of `SEGMENT_RE`. -/
def isCatalogChar (c : Char) : Bool := c.isAlphanum || c = '.' || c = '_' || c = '-'

/-- Alternation `(major|minor|patch|feat|fix|na)` of `SEGMENT_RE`, in regex
order. -/
def matchLevelToken (l : List Char) : Option (String × List Char) :=
  firstToken VALID_LEVEL_TOKENS l

/-- File-list extraction from the text after the `:` of a segment.  The regex
group `(.+?)` with trailing `\s*;?\s*$` captures the remainder up to trailing
whitespace (segments were pre-split on `;`, so no `;` occurs, and compacted
segments contain no newline); line 95 then splits the group on `,`, strips,
lowercases, and drops empty chunks — the per-chunk strip makes the regex
group's edge-whitespace handling irrelevant. -/
def splitCommaFiles (r : List Char) : List String :=
  (((splitOnCharL ',' r).map (fun chunk => lowerL (stripChars chunk))).filter
    (fun c => !c.isEmpty)).map (fun c => (⟨c⟩ : String))

/-- Tail of `SEGMENT_RE` after the catalog token: `\s*:\s*` (the first `\s*`
was consumed by the caller) then the file-list group, which requires at least
one character after the colon. -/
def segColon (level catalog : String) (r3 : List Char) : Option Segment :=
  match r3 with
  | ':' :: r4 =>
    if r4.isEmpty then none
    else some { level := level, catalog := catalog, files := splitCommaFiles r4 }
  | _ => none

/-- Middle of `SEGMENT_RE`: the catalog token `[A-Za-z0-9._\-]+` (nonempty,
greedy — the following `\s*:` starts outside the class). -/
def segCatalog (level : String) (r2 : List Char) : Option Segment :=
  if (r2.takeWhile isCatalogChar).isEmpty then none
  else segColon level ⟨r2.takeWhile isCatalogChar⟩
    ((r2.drop (r2.takeWhile isCatalogChar).length).dropWhile pySpace)

/-- `SEGMENT_RE` after the level token: `\s+` (at least one whitespace
character, then greedily all of them — the catalog class has no whitespace). -/
def segAfterLevel (level : String) (r1 : List Char) : Option Segment :=
  match r1 with
  | [] => none
  | c :: _ => if pySpace c then segCatalog level (r1.dropWhile pySpace) else none

/-- Full match of `SEGMENT_RE` (lines 67-78) against one stripped segment. -/
def matchSegment (seg : String) : Option Segment :=
  match matchLevelToken (seg.data.dropWhile pySpace) with
  | none => none
  | some (level, r1) => segAfterLevel level r1

/-- `parse_commit_segments` (lines 80-97): join the stripped nonempty lines
with single spaces, split on `;`, strip and drop empty segments, and parse
each against `SEGMENT_RE`, silently dropping segments that do not match. -/
def parse_commit_segments (msg : String) : List Segment :=
  let compact := joinWithL [' ']
    (((pySplitlines msg.data).map stripChars).filter (fun l => !l.isEmpty))
  let raw := ((splitOnCharL ';' compact).map stripChars).filter (fun l => !l.isEmpty)
  (raw.map (fun l => (⟨l⟩ : String))).filterMap matchSegment

/-- Python `pathlib.Path(p).name` for git paths (the last `/` component). -/
def pathBasename (p : String) : String :=
  match (splitOnCharL '/' p.data).reverse with
  | [] => ""
  | lastc :: _ => ⟨lastc⟩

/-- Accumulated file set listed for one catalog token across all of its
segments (`listed_by_catalog`, lines 126-132: duplicate segments for the same
catalog union their file lists). -/
def listed_files (segments : List Segment) (catalog : String) : List String :=
  (segments.filter (fun s => s.catalog = catalog)).flatMap Segment.files

/-- Boolean core of `validate_message_for_groups` (lines 111-146): an empty
change group validates; no parsed segments fails; an unrecognized level token
among the parsed segments fails the whole message; otherwise every changed
catalog needs some segment with its exact name and all of its lowercased
basenames listed.  (Parsed levels are already lowercase, so the second
`.lower()` of line 130 is the identity here.) -/
def message_groups_ok (msg : String) (groups : List (String × List String)) : Bool :=
  let segments := parse_commit_segments msg
  if groups.isEmpty then true
  else if segments.isEmpty then false
  else if !(segments.all (fun s => elemStr s.level VALID_LEVEL_TOKENS)) then false
  else groups.all (fun g =>
    segments.any (fun s => s.catalog = g.1) &&
    g.2.all (fun p => elemStr (strLower (pathBasename p)) (listed_files segments g.1)))

/-- `build_guidance` (lines 99-109). -/
def build_guidance (groups : List (String × List String)) : String :=
  joinWithStr "\n" ("Missing semver mapping for the changed catalog." :: "Use one of:" ::
    (sortStrs (dedupStr (groups.map Prod.fst))).map (fun catalog =>
      "  <major|minor|patch|feat|fix> " ++ catalog ++ " : " ++
        joinWithStr ", " (sortStrs (dedupStr
          ((((groups.find? (fun g => g.1 = catalog)).map Prod.snd).getD []).map pathBasename))) ++ ";"))

/-- `validate_message_for_groups` (lines 111-146): the ok flag and the
guidance text (empty on success; every failure path returns
`build_guidance(groups)`). -/
def validate_message_for_groups (msg : String) (groups : List (String × List String)) :
    Bool × String :=
  if message_groups_ok msg groups then (true, "") else (false, build_guidance groups)

end SemanticVersioning

theorem elemStr_iff (x : String) : ∀ l : List String, elemStr x l = true ↔ x ∈ l := by
  intro l
  induction l with
  | nil => simp [elemStr]
  | cons y ys ih => simp [elemStr, ih, Bool.or_eq_true, decide_eq_true_iff]

theorem isPrefixOfCL_self_append : ∀ p r : List Char, isPrefixOfCL p (p ++ r) = true := by
  intro p
  induction p with
  | nil => intro r; rfl
  | cons a as ih => intro r; simp [isPrefixOfCL, ih r]

theorem isPrefixOfCL_append_of (p l r : List Char) (h : isPrefixOfCL p l = true) :
    isPrefixOfCL p (l ++ r) = true := by
  induction p generalizing l with
  | nil => rfl
  | cons a as ih =>
    cases l with
    | nil => simp [isPrefixOfCL] at h
    | cons b bs =>
      simp only [isPrefixOfCL, Bool.and_eq_true, decide_eq_true_iff] at h ⊢
      exact ⟨h.1, ih bs h.2⟩

theorem occursIn_append_left (p a b : List Char) (h : occursIn p a = true) :
    occursIn p (a ++ b) = true := by
  induction a with
  | nil =>
    simp only [occursIn, List.isEmpty_iff] at h
    subst h
    cases b with
    | nil => rfl
    | cons c cs => simp [occursIn, isPrefixOfCL]
  | cons c cs ih =>
    simp only [occursIn, Bool.or_eq_true] at h ⊢
    cases h with
    | inl h1 =>
      exact Or.inl (by simpa using isPrefixOfCL_append_of p (c :: cs) b h1)
    | inr h2 => exact Or.inr (ih h2)

theorem occursIn_append_right (p a b : List Char) (h : occursIn p b = true) :
    occursIn p (a ++ b) = true := by
  induction a with
  | nil => simpa using h
  | cons c cs ih =>
    simp only [List.cons_append, occursIn, Bool.or_eq_true]
    exact Or.inr ih

theorem occursIn_self_append (p r : List Char) : occursIn p (p ++ r) = true := by
  cases p with
  | nil =>
    cases r with
    | nil => rfl
    | cons c cs => simp [occursIn, isPrefixOfCL]
  | cons a as =>
    simp only [List.cons_append, occursIn, Bool.or_eq_true]
    exact Or.inl (by simpa using isPrefixOfCL_self_append (a :: as) r)

theorem str_data_append (a b : String) : (a ++ b).data = a.data ++ b.data := by
  cases a
  cases b
  rfl

theorem strContains_append_of_left (a b pat : String) (h : strContains a pat = true) :
    strContains (a ++ b) pat = true := by
  unfold strContains at h ⊢
  rw [str_data_append]
  exact occursIn_append_left pat.data a.data b.data h

theorem strContains_append_of_right (a b pat : String) (h : strContains b pat = true) :
    strContains (a ++ b) pat = true := by
  unfold strContains at h ⊢
  rw [str_data_append]
  exact occursIn_append_right pat.data a.data b.data h

theorem strEndsWith_nl_append (s t : String) (h : strEndsWith t "\n" = true) :
    strEndsWith (s ++ t) "\n" = true := by
  unfold strEndsWith at h ⊢
  rw [str_data_append, List.reverse_append]
  exact isPrefixOfCL_append_of _ _ _ h

theorem strEndsWith_append_nl (s : String) : strEndsWith (s ++ "\n") "\n" = true :=
  strEndsWith_nl_append s "\n" rfl

theorem str_append_empty (s : String) : s ++ "" = s := by
  cases s with
  | mk l => show String.mk (l ++ []) = String.mk l; rw [List.append_nil]

theorem str_mk_data (s : String) : (⟨s.data⟩ : String) = s := by
  cases s
  rfl

theorem joinWithStr_empty_cons (x : String) (xs : List String) :
    joinWithStr "" (x :: xs) = x ++ joinWithStr "" xs := by
  cases x with
  | mk xl =>
    cases xs with
    | nil =>
      show (⟨joinWithL [] [xl]⟩ : String) = (⟨xl ++ []⟩ : String)
      rw [List.append_nil]
      rfl
    | cons y ys =>
      show (⟨xl ++ [] ++ joinWithL [] (y.data :: ys.map String.data)⟩ : String) =
        (⟨xl ++ joinWithL [] (y.data :: ys.map String.data)⟩ : String)
      rw [List.append_nil]

theorem joinWithStr_empty_endsNl (ls : List String)
    (h : ∀ x ∈ ls, strEndsWith x "\n" = true) :
    joinWithStr "" ls = "" ∨ strEndsWith (joinWithStr "" ls) "\n" = true := by
  induction ls with
  | nil => exact Or.inl rfl
  | cons x xs ih =>
    right
    rw [joinWithStr_empty_cons]
    rcases ih (fun y hy => h y (List.mem_cons_of_mem x hy)) with h0 | h1
    · rw [h0, str_append_empty]
      exact h x (List.mem_cons_self x xs)
    · exact strEndsWith_nl_append x _ h1

namespace SemanticBump

/-- C2: for every non-negative version tuple, bumping major yields
(major+1, 0, 0) zeroing both lower components, bumping minor yields
(major, minor+1, 0), and bumping patch yields (major, minor, patch+1). -/
theorem C2_bump_tuple_transitions : ∀ a b c : Nat,
    bump_tuple (a, b, c) "major" = (a + 1, 0, 0) ∧
    bump_tuple (a, b, c) "minor" = (a, b + 1, 0) ∧
    bump_tuple (a, b, c) "patch" = (a, b, c + 1) := by
  intro a b c
  refine ⟨rfl, ?_, ?_⟩ <;> simp [bump_tuple]

/-- C3 counterexample: the unrecognized token `bogus` does not abort with an
error; `bump_tuple` performs a patch bump on it, and `do_pre_commit`'s lookup
`LEVEL_MAP.get(token, "patch")` silently falls back to `patch`. -/
theorem C3_counterexample :
    bump_tuple (1, 2, 3) "bogus" = (1, 2, 4) ∧
    LEVEL_MAP_get "bogus" "patch" = "patch" := by
  constructor
  · rfl
  · rfl

/-- C3 amended: presenting a level token outside the recognized set never
fails: `bump_tuple` treats every level other than `major` and `minor` as a
patch bump, and `do_pre_commit`'s `LEVEL_MAP.get(token, "patch")` resolves
any token missing from `LEVEL_MAP` to `patch`; no error is raised and a patch
bump is performed instead of an abort. -/
theorem C3_unrecognized_level_defaults_to_patch :
    (∀ (v : Nat × Nat × Nat) (tok : String), tok ≠ "major" → tok ≠ "minor" →
      bump_tuple v tok = (v.1, v.2.1, v.2.2 + 1)) ∧
    (∀ tok : String, dictGet LEVEL_MAP tok = none →
      LEVEL_MAP_get tok "patch" = "patch") := by
  constructor
  · intro v tok h1 h2
    simp [bump_tuple, h1, h2]
  · intro tok h
    simp [LEVEL_MAP_get, h]

/-- C3 witness: the amended fact evaluated at the concrete token `oops`. -/
theorem C3_witness :
    bump_tuple (1, 2, 3) "oops" = (1, 2, 4) ∧
    LEVEL_MAP_get "oops" "patch" = "patch" := by
  constructor
  · exact C3_unrecognized_level_defaults_to_patch.1 (1, 2, 3) "oops"
      (by decide) (by decide)
  · exact C3_unrecognized_level_defaults_to_patch.2 "oops" (by decide)

/-- C9 counterexample: when the only staged file is a catalog's metadata file
`catalogs/catalog_alpha/__init__.py` and a terminal is attached, the
pre-commit stage does not take the no-action path: the metadata file matches
the catalog's `.py` filter, the catalog counts as touched, and the script
proceeds into the interactive read/bump/rewrite flow. -/
theorem C9_counterexample :
    do_pre_commit_outcome ["catalogs/catalog_alpha/__init__.py"] true =
      .interactive [("catalogs/catalog_alpha", "catalogs/catalog_alpha/__init__.py")] := by
  decide

/-- C9 amended: staging only the catalogs' metadata `__init__.py` files still
counts as touching every catalog (they match the `.py` filter under the
catalog directory); the pre-commit stage takes no action only when stdin is
not a terminal, and with a terminal attached it proceeds to the interactive
bump flow over all three catalogs. -/
theorem C9_metadata_only_still_touches :
    ∀ isatty : Bool,
      do_pre_commit_outcome
        ["catalogs/catalog_alpha/__init__.py", "catalogs/catalog_beta/__init__.py",
         "catalogs/catalog_gamma/__init__.py"] isatty =
        if isatty then .interactive CATALOGS else .exitNoTty := by
  intro isatty
  cases isatty <;> decide

/-- C7: whenever the metadata file is missing (`read_text` yields the empty
string) or its text contains no line matching the version-literal pattern,
`get_version_from_init` self-heals: it returns version (0, 1, 0), writes the
returned content back to the file, and that content contains the literal
`__version__ = "0.1.0"`.  The function is total with no error result, so no
MalformedMetadataFile-style failure can be raised on this path. -/
theorem C7_missing_version_self_heals :
    ∀ txt : String, VERSION_LINE_search txt = none →
      (get_version_from_init txt).version = (0, 1, 0) ∧
      (get_version_from_init txt).wrote = some (get_version_from_init txt).content ∧
      strContains (get_version_from_init txt).content "__version__ = \"0.1.0\"" = true := by
  intro txt hsearch
  by_cases h0 : txt = ""
  · subst h0
    refine ⟨rfl, rfl, ?_⟩
    decide
  · simp only [get_version_from_init, h0, if_false, hsearch]
    refine ⟨trivial, trivial, ?_⟩
    exact strContains_append_of_right (pyRstrip txt) "\n__version__ = \"0.1.0\"\n" _ (by decide)

/-- C6: with exactly one touched catalog, the required level comes from the
per-catalog quoted entry when one exists for the catalog's short name
(regardless of a Global entry: precedence), otherwise from a Global entry
when present, and the resolution fails exactly when neither exists; the
concrete runs exercise the full commit-msg pipeline, showing a per-catalog
`fix` entry overriding `Global : major` to a patch bump, the Global fallback,
and the exit-1 rejection when neither entry exists. -/
theorem C6_single_catalog_resolution :
    (∀ (only : String) (g : Option String) (per : List (String × String)) (lvl : String),
      dictGet per only = some lvl → resolve_levels [only] g per = .ok [(only, lvl)]) ∧
    (∀ (only gl : String) (per : List (String × String)),
      dictGet per only = none → resolve_levels [only] (some gl) per = .ok [(only, gl)]) ∧
    (∀ (only : String) (per : List (String × String)),
      dictGet per only = none →
        resolve_levels [only] none per = .error (.missingSingle only)) ∧
    do_commit_msg_resolve ["catalogs/catalog_alpha/a.py"]
        "Global : major\n\"catalog_alpha\" : fix" = .proceed [("catalog_alpha", "patch")] ∧
    do_commit_msg_resolve ["catalogs/catalog_alpha/a.py"]
        "Global : major" = .proceed [("catalog_alpha", "major")] ∧
    commit_msg_exit (do_commit_msg_resolve ["catalogs/catalog_alpha/a.py"]
        "update stuff") = 1 := by
  refine ⟨?_, ?_, ?_, by decide, by decide, by decide⟩
  · intro only g per lvl h
    simp [resolve_levels, h]
  · intro only gl per h
    simp [resolve_levels, h]
  · intro only per h
    simp [resolve_levels, h]

/-- C6 witness: the per-catalog entry takes precedence over a simultaneously
present Global entry at concrete inputs. -/
theorem C6_witness :
    resolve_levels ["catalog_alpha"] (some "major") [("catalog_alpha", "patch")] =
      .ok [("catalog_alpha", "patch")] :=
  C6_single_catalog_resolution.1 "catalog_alpha" (some "major")
    [("catalog_alpha", "patch")] "patch" (by decide)

/-- C5: with more than one (in general, not exactly one) touched catalog, the
Global entry is never consulted (the resolution is invariant in it), a
missing per-catalog entry for any touched catalog rejects with the sorted
list of missing names, and an entry for a catalog that is not touched
rejects with the sorted list of extraneous names; the concrete runs show
both rejections through the full commit-msg pipeline with exit status 1. -/
theorem C5_multi_catalog_resolution :
    (∀ (touched : List String) (g : Option String) (per : List (String × String)),
      touched.length ≠ 1 → resolve_levels touched g per = resolve_levels touched none per) ∧
    (∀ (touched : List String) (g : Option String) (per : List (String × String)),
      touched.length ≠ 1 →
      touched.filter (fun n => !elemStr n (per.map Prod.fst)) ≠ [] →
      resolve_levels touched g per = .error (.missingMulti (sortStrs touched)
        (sortStrs (touched.filter (fun n => !elemStr n (per.map Prod.fst)))))) ∧
    (∀ (touched : List String) (g : Option String) (per : List (String × String)),
      touched.length ≠ 1 →
      touched.filter (fun n => !elemStr n (per.map Prod.fst)) = [] →
      (per.map Prod.fst).filter (fun n => !elemStr n touched) ≠ [] →
      resolve_levels touched g per = .error (.extraneousCatalogs
        (sortStrs ((per.map Prod.fst).filter (fun n => !elemStr n touched))))) ∧
    do_commit_msg_resolve ["catalogs/catalog_alpha/a.py", "catalogs/catalog_beta/b.py"]
        "Global : patch" =
      .reject (.missingMulti ["catalog_alpha", "catalog_beta"]
        ["catalog_alpha", "catalog_beta"]) ∧
    commit_msg_exit (do_commit_msg_resolve
        ["catalogs/catalog_alpha/a.py", "catalogs/catalog_beta/b.py"] "Global : patch") = 1 ∧
    do_commit_msg_resolve ["catalogs/catalog_alpha/a.py", "catalogs/catalog_beta/b.py"]
        "\"catalog_alpha\" : minor ; \"catalog_beta\" : fix ; \"catalog_gamma\" : patch" =
      .reject (.extraneousCatalogs ["catalog_gamma"]) := by
  refine ⟨?_, ?_, ?_, by decide, by decide, by decide⟩
  · intro touched g per h
    match touched with
    | [] => rfl
    | [x] => exact absurd rfl h
    | a :: b :: t => rfl
  · intro touched g per h hne
    match touched with
    | [] => exact absurd rfl hne
    | [x] => exact absurd rfl h
    | a :: b :: t =>
      have hemp : ((a :: b :: t).filter (fun n => !elemStr n (per.map Prod.fst))).isEmpty = false := by
        cases hf : (a :: b :: t).filter (fun n => !elemStr n (per.map Prod.fst)) with
        | nil => exact absurd hf hne
        | cons x xs => rfl
      simp [resolve_levels, hemp]
  · intro touched g per h hmiss hextr
    match touched with
    | [] =>
      have hemp2 : ((per.map Prod.fst).filter (fun n => !elemStr n ([] : List String))).isEmpty = false := by
        cases hf : (per.map Prod.fst).filter (fun n => !elemStr n ([] : List String)) with
        | nil => exact absurd hf hextr
        | cons x xs => rfl
      simp [resolve_levels, hmiss, hemp2]
    | [x] => exact absurd rfl h
    | a :: b :: t =>
      have hemp2 : ((per.map Prod.fst).filter (fun n => !elemStr n (a :: b :: t))).isEmpty = false := by
        cases hf : (per.map Prod.fst).filter (fun n => !elemStr n (a :: b :: t)) with
        | nil => exact absurd hf hextr
        | cons x xs => rfl
      simp [resolve_levels, hmiss, hemp2]

/-- C5 witness: the missing-entry rejection evaluated at two touched names
with one per-catalog entry. -/
theorem C5_witness :
    resolve_levels ["catalog_alpha", "catalog_beta"] (some "patch")
        [("catalog_alpha", "minor")] =
      .error (.missingMulti ["catalog_alpha", "catalog_beta"] ["catalog_beta"]) :=
  C5_multi_catalog_resolution.2.1 ["catalog_alpha", "catalog_beta"] (some "patch")
    [("catalog_alpha", "minor")] (by decide) (by decide)

theorem semver_trailer_block_endsNl (b t : List String) (L : List (String × String)) :
    strEndsWith (semver_trailer_block b t L) "\n" = true := by
  unfold semver_trailer_block
  have hwild : ∀ names : List String,
      strEndsWith ("Semver-Bump: " ++ joinWithStr "," (sortStrs b) ++ "\n" ++
        joinWithStr "" (names.map (fun name =>
          "Semver-Level-" ++ name ++ ": " ++ (dictGet L name).getD "" ++ "\n"))) "\n" = true := by
    intro names
    have hend : ∀ x ∈ names.map (fun name =>
        "Semver-Level-" ++ name ++ ": " ++ (dictGet L name).getD "" ++ "\n"),
        strEndsWith x "\n" = true := by
      intro x hx
      rcases List.mem_map.mp hx with ⟨n, hn, rfl⟩
      exact strEndsWith_append_nl _
    rcases joinWithStr_empty_endsNl _ hend with h0 | h1
    · rw [h0, str_append_empty]
      exact strEndsWith_append_nl _
    · exact strEndsWith_nl_append _ _ h1
  cases t with
  | nil => exact hwild _
  | cons a t2 =>
    cases t2 with
    | nil => exact strEndsWith_nl_append _ _ (strEndsWith_append_nl _)
    | cons c t3 => exact hwild _

theorem append_trailers_endsNl (msg : String) (b t : List String)
    (L : List (String × String)) :
    strEndsWith (append_trailers msg b t L) "\n" = true :=
  strEndsWith_nl_append _ _ (semver_trailer_block_endsNl b t L)

theorem append_trailers_has_precommit (msg : String) (b t : List String)
    (L : List (String × String)) :
    strContains (append_trailers msg b t L) "Precommit-Run: true" = true := by
  unfold append_trailers
  apply strContains_append_of_left
  unfold ensure_precommit_trailer
  by_cases h : strContains (ensure_trailing_nl msg) "Precommit-Run: true" = true
  · rw [if_pos h]
    exact h
  · rw [if_neg h]
    exact strContains_append_of_right _ _ _ (by decide)

theorem append_trailers_second_run (msg : String) (b t : List String)
    (L : List (String × String)) :
    append_trailers (append_trailers msg b t L) b t L =
      append_trailers msg b t L ++ semver_trailer_block b t L := by
  have houter : append_trailers (append_trailers msg b t L) b t L =
      ensure_precommit_trailer (ensure_trailing_nl (append_trailers msg b t L)) ++
        semver_trailer_block b t L := rfl
  rw [houter]
  have h1 : ensure_trailing_nl (append_trailers msg b t L) = append_trailers msg b t L := by
    unfold ensure_trailing_nl
    rw [if_pos (append_trailers_endsNl msg b t L)]
  rw [h1]
  have h2 : ensure_precommit_trailer (append_trailers msg b t L) = append_trailers msg b t L := by
    unfold ensure_precommit_trailer
    rw [if_pos (append_trailers_has_precommit msg b t L)]
  rw [h2]

/-- C8 counterexample: running the trailer-appending mutation twice on a
message duplicates the `Semver-Bump` trailer line — the second run appends it
again although it is already present, so the appension is not idempotent for
every trailer token. -/
theorem C8_counterexample :
    countOccurStr
      (append_trailers
        (append_trailers "Did things." ["catalog_alpha"] ["catalog_alpha"]
          [("catalog_alpha", "patch")])
        ["catalog_alpha"] ["catalog_alpha"] [("catalog_alpha", "patch")])
      "Semver-Bump: catalog_alpha\n" = 2 := by
  decide

/-- C8 amended: only the `Precommit-Run: true` trailer is appended under a
presence check; the `Semver-Bump` and `Semver-Level-` trailers are appended
unconditionally, so a second run of the mutation appends exactly the Semver
trailer block again — duplicating those lines — while the `Precommit-Run`
line is not duplicated (concrete double run: one `Precommit-Run: true`
occurrence, two `Semver-Level-catalog_alpha` lines). -/
theorem C8_only_precommit_trailer_idempotent :
    (∀ (msg : String) (b t : List String) (L : List (String × String)),
      append_trailers (append_trailers msg b t L) b t L =
        append_trailers msg b t L ++ semver_trailer_block b t L) ∧
    countOccurStr
      (append_trailers
        (append_trailers "Did things." ["catalog_alpha"] ["catalog_alpha"]
          [("catalog_alpha", "patch")])
        ["catalog_alpha"] ["catalog_alpha"] [("catalog_alpha", "patch")])
      "Precommit-Run: true" = 1 ∧
    countOccurStr
      (append_trailers
        (append_trailers "Did things." ["catalog_alpha"] ["catalog_alpha"]
          [("catalog_alpha", "patch")])
        ["catalog_alpha"] ["catalog_alpha"] [("catalog_alpha", "patch")])
      "Semver-Level-catalog_alpha: patch\n" = 2 := by
  exact ⟨append_trailers_second_run, by decide, by decide⟩

/-- C7 witness: healing evaluated on the concrete content `x = 1` which has
no version literal. -/
theorem C7_witness :
    (get_version_from_init "x = 1\n").version = (0, 1, 0) ∧
    (get_version_from_init "x = 1\n").wrote =
      some (get_version_from_init "x = 1\n").content ∧
    strContains (get_version_from_init "x = 1\n").content
      "__version__ = \"0.1.0\"" = true :=
  C7_missing_version_self_heals "x = 1\n" (by decide)

end SemanticBump

theorem tryToken_eq_some (tok : String) (l : List Char) (p : String × List Char)
    (h : tryToken tok l = some p) : p.1 = tok := by
  unfold tryToken at h
  cases hd : dropCI tok.data l with
  | none => rw [hd] at h; cases h
  | some rest =>
    rw [hd] at h
    cases h
    rfl

theorem firstToken_mem (toks : List String) (l : List Char) (p : String × List Char)
    (h : firstToken toks l = some p) : p.1 ∈ toks := by
  induction toks with
  | nil => cases h
  | cons t ts ih =>
    unfold firstToken at h
    cases ht : tryToken t l with
    | some r =>
      rw [ht] at h
      have hp : p = r := (Option.some.inj h).symm
      rw [hp, tryToken_eq_some t l r ht]
      exact List.mem_cons_self t ts
    | none =>
      rw [ht] at h
      exact List.mem_cons_of_mem t (ih h)

namespace SemanticVersioning

theorem segColon_level (level catalog : String) (r3 : List Char) (s : Segment)
    (h : segColon level catalog r3 = some s) : s.level = level := by
  unfold segColon at h
  split at h
  · split at h
    · exact Option.noConfusion h
    · cases h
      rfl
  · exact Option.noConfusion h

theorem segCatalog_level (level : String) (r2 : List Char) (s : Segment)
    (h : segCatalog level r2 = some s) : s.level = level := by
  unfold segCatalog at h
  split at h
  · exact Option.noConfusion h
  · exact segColon_level _ _ _ _ h

theorem segAfterLevel_level (level : String) (r1 : List Char) (s : Segment)
    (h : segAfterLevel level r1 = some s) : s.level = level := by
  unfold segAfterLevel at h
  split at h
  · exact Option.noConfusion h
  · split at h
    · exact segCatalog_level _ _ _ h
    · exact Option.noConfusion h

theorem matchSegment_level_mem (seg : String) (s : Segment)
    (h : matchSegment seg = some s) : s.level ∈ VALID_LEVEL_TOKENS := by
  unfold matchSegment at h
  cases hm : matchLevelToken (seg.data.dropWhile pySpace) with
  | none => rw [hm] at h; exact Option.noConfusion h
  | some p =>
    obtain ⟨lvl, r1⟩ := p
    rw [hm] at h
    rw [segAfterLevel_level lvl r1 s h]
    exact firstToken_mem VALID_LEVEL_TOKENS _ (lvl, r1) hm

/-- Every segment produced by the parser carries a level token from the
recognized set: `SEGMENT_RE` only matches those six tokens, so segments with
any other level word fail to parse and are dropped before validation. -/
theorem parse_levels_all_valid (msg : String) :
    (parse_commit_segments msg).all (fun s => elemStr s.level VALID_LEVEL_TOKENS) = true := by
  rw [List.all_eq_true]
  intro s hs
  simp only [parse_commit_segments] at hs
  rcases List.mem_filterMap.mp hs with ⟨seg, hmem, hm⟩
  exact (elemStr_iff s.level VALID_LEVEL_TOKENS).mpr (matchSegment_level_mem seg s hm)

theorem validate_fst (msg : String) (groups : List (String × List String)) :
    (validate_message_for_groups msg groups).1 = message_groups_ok msg groups := by
  unfold validate_message_for_groups
  by_cases h : message_groups_ok msg groups = true
  · rw [if_pos h, h]
  · rw [if_neg h]
    cases hb : message_groups_ok msg groups with
    | false => rfl
    | true => exact absurd hb h

/-- C1: validation succeeds only if every catalog of the change group has at
least one parsed segment with its exact catalog token and the accumulated
(lowercased) file set of that catalog's segments covers every touched file's
lowercased basename; concretely, with catalog gamma touched with a.py and
b.py, the message `patch gamma : a.py;` fails validation even though a
segment for gamma exists. -/
theorem C1_coverage_required :
    (∀ (msg : String) (groups : List (String × List String)),
      (validate_message_for_groups msg groups).1 = true →
      ∀ (c : String) (paths : List String), (c, paths) ∈ groups →
        (∃ s ∈ parse_commit_segments msg, s.catalog = c) ∧
        ∀ p ∈ paths, strLower (pathBasename p) ∈ listed_files (parse_commit_segments msg) c) ∧
    (validate_message_for_groups "patch gamma : a.py;"
      [("gamma", ["catalogs/gamma/a.py", "catalogs/gamma/b.py"])]).1 = false ∧
    (∃ s ∈ parse_commit_segments "patch gamma : a.py;", s.catalog = "gamma") := by
  refine ⟨?_, by decide, by decide⟩
  intro msg groups hval c paths hmem
  rw [validate_fst] at hval
  have hne : groups.isEmpty = false := by
    cases groups with
    | nil => cases hmem
    | cons a l => rfl
  simp only [message_groups_ok, hne, Bool.false_eq_true, if_false] at hval
  by_cases hseg : (parse_commit_segments msg).isEmpty = true
  · rw [if_pos hseg] at hval
    exact absurd hval Bool.false_ne_true
  · rw [if_neg hseg] at hval
    by_cases htok :
        (parse_commit_segments msg).all (fun s => elemStr s.level VALID_LEVEL_TOKENS) = true
    · rw [htok] at hval
      simp only [Bool.not_true, Bool.false_eq_true, if_false] at hval
      have hp := List.all_eq_true.mp hval (c, paths) hmem
      simp only [Bool.and_eq_true] at hp
      constructor
      · rcases List.any_eq_true.mp hp.1 with ⟨s, hs, hdec⟩
        exact ⟨s, hs, of_decide_eq_true hdec⟩
      · intro p hpmem
        exact (elemStr_iff _ _).mp (List.all_eq_true.mp hp.2 p hpmem)
    · exact absurd (parse_levels_all_valid msg) htok

/-- C1 witness: the coverage facts extracted from a concrete validating run
where gamma's two touched files are both listed. -/
theorem C1_witness :
    (∃ s ∈ parse_commit_segments "patch gamma : a.py, b.py;", s.catalog = "gamma") ∧
    ∀ p ∈ ["catalogs/gamma/a.py", "catalogs/gamma/b.py"],
      strLower (pathBasename p) ∈
        listed_files (parse_commit_segments "patch gamma : a.py, b.py;") "gamma" :=
  C1_coverage_required.1 "patch gamma : a.py, b.py;"
    [("gamma", ["catalogs/gamma/a.py", "catalogs/gamma/b.py"])] (by decide)
    "gamma" ["catalogs/gamma/a.py", "catalogs/gamma/b.py"] (by decide)

/-- C4 counterexample: the message `bogus gamma : x.py; patch gamma : a.py;`
declares the unrecognized level token `bogus` in its first segment, yet the
whole message still validates because the unparsable segment is silently
dropped and the remaining segment fully covers the touched catalog — the
message is not invalidated as the claim requires. -/
theorem C4_counterexample :
    (validate_message_for_groups "bogus gamma : x.py; patch gamma : a.py;"
      [("gamma", ["catalogs/gamma/a.py"])]).1 = true := by
  decide

/-- C4 amended: segments whose level token is outside the recognized set fail
to match `SEGMENT_RE` and are silently dropped, so every parsed segment's
level token is recognized and the fail-closed unrecognized-token rejection of
the validator can never fire; a message containing an unrecognized level word
still validates when the remaining segments fully cover every touched
catalog. -/
theorem C4_unrecognized_tokens_dropped_not_fatal :
    (∀ msg : String,
      (parse_commit_segments msg).all (fun s => elemStr s.level VALID_LEVEL_TOKENS) = true) ∧
    (validate_message_for_groups "bogus gamma : x.py; patch gamma : a.py;"
      [("gamma", ["catalogs/gamma/a.py"])]).1 = true :=
  ⟨parse_levels_all_valid, by decide⟩

/-- C10: in validate-only mode the catalog token is matched case-sensitively
against the touched catalog name — if no parsed segment carries the exact
name, validation fails, and a segment differing only in case provides no
coverage — while level tokens and file basenames are matched
case-insensitively (the uppercase variants still validate). -/
theorem C10_catalog_case_sensitive :
    (∀ (msg : String) (groups : List (String × List String)) (c : String) (paths : List String),
      (c, paths) ∈ groups →
      (∀ s ∈ parse_commit_segments msg, s.catalog ≠ c) →
      (validate_message_for_groups msg groups).1 = false) ∧
    (validate_message_for_groups "PATCH gamma : A.PY;"
      [("gamma", ["catalogs/gamma/a.py"])]).1 = true ∧
    (validate_message_for_groups "patch Gamma : a.py;"
      [("gamma", ["catalogs/gamma/a.py"])]).1 = false := by
  refine ⟨?_, by decide, by decide⟩
  intro msg groups c paths hmem hnone
  rw [validate_fst]
  have hne : groups.isEmpty = false := by
    cases groups with
    | nil => cases hmem
    | cons a l => rfl
  have hfalse : groups.all (fun g =>
      (parse_commit_segments msg).any (fun s => s.catalog = g.1) &&
      g.2.all (fun p => elemStr (strLower (pathBasename p))
        (listed_files (parse_commit_segments msg) g.1))) = false := by
    cases hall : groups.all (fun g =>
        (parse_commit_segments msg).any (fun s => s.catalog = g.1) &&
        g.2.all (fun p => elemStr (strLower (pathBasename p))
          (listed_files (parse_commit_segments msg) g.1))) with
    | false => rfl
    | true =>
      exfalso
      have hp := List.all_eq_true.mp hall (c, paths) hmem
      simp only [Bool.and_eq_true] at hp
      rcases List.any_eq_true.mp hp.1 with ⟨s, hs, hdec⟩
      exact hnone s hs (of_decide_eq_true hdec)
  simp only [message_groups_ok, hne, Bool.false_eq_true, if_false, hfalse]
  split
  · rfl
  · split
    · rfl
    · rfl

/-- C10 witness: the case-sensitivity fact evaluated at the concrete message
`patch Gamma : a.py;` against the touched catalog `gamma`. -/
theorem C10_witness :
    (validate_message_for_groups "patch Gamma : a.py;"
      [("gamma", ["catalogs/gamma/a.py"])]).1 = false :=
  C10_catalog_case_sensitive.1 "patch Gamma : a.py;"
    [("gamma", ["catalogs/gamma/a.py"])] "gamma" ["catalogs/gamma/a.py"]
    (by decide) (by decide)

end SemanticVersioning

end SemverHooks
